import Mathlib

/-!
Verification of the run-orchestration core of the a2a-hackathon-submission
repository: the `AgDevClient` transport/polling client and the `Agent`
batch runner (src/apps/main/src/config.ts, concatenated modules
`config.ts` / `agent.ts` / `ag-dev.js`).

The embedding below translates the TypeScript source into Lean:
pure string manipulation becomes Lean string functions, the HTTP
transport becomes an oracle value describing the outcome of one `fetch`
call, the polling loop becomes a fuel-indexed recursion over a poll
trace, and `Promise.all` over already-started promises becomes a
deterministic fan-in over a list of `Except` values.
-/

namespace AgDev

/-- The run status union `"pending" | "running" | "done" | "error"`. -/
inductive Status where
  | pending
  | running
  | done
  | error
deriving DecidableEq, Repr

/-- The terminal-state test used by `waitForAgentRun`:
`run.status === "done" || run.status === "error"`. -/
def Status.isTerminal : Status → Bool
  | .done => true
  | .error => true
  | _ => false

/-- Representation of an arbitrary JSON object payload
(`Record<string, unknown>`); the orchestration core never inspects it. -/
abbrev JsonObject := List (String × String)

/-- The `AgentRun` record returned by the remote API. -/
structure AgentRun where
  id : String
  agentId : String
  status : Status
  input : JsonObject
  resultData : Option JsonObject
  createdAt : String
  updatedAt : String
  completedAt : Option String
deriving DecidableEq, Repr

/-- The `AgentRunResult` record produced by the `Agent` wrapper
(the run snapshot minus its `agentId`). -/
structure AgentRunResult where
  id : String
  status : Status
  input : JsonObject
  resultData : Option JsonObject
  createdAt : String
  updatedAt : String
  completedAt : Option String
deriving DecidableEq, Repr

/-- The field-by-field reshaping performed by `Agent.run`,
`Agent.waitForRun` and `Agent.getRunResult`. -/
def toAgentRunResult (r : AgentRun) : AgentRunResult :=
  ⟨r.id, r.status, r.input, r.resultData, r.createdAt, r.updatedAt, r.completedAt⟩

/-- The structured error body shape `{error, message, statusCode}`
(type `ApiError` in the source). An absent or non-string `message`
field is represented by the empty string, which is exactly the set of
falsy string values for the `||` fallback in the source. -/
structure ErrorBody where
  error : String
  message : String
  statusCode : Nat
deriving DecidableEq, Repr

/-- A JavaScript thrown value as discriminated by
`error instanceof Error`: either an `Error` object carrying a message,
or any other value, carried as its `String(error)` rendering. -/
inductive JsError where
  | errorObj (message : String)
  | other (value : String)
deriving DecidableEq, Repr

/-- The observable part of one `fetch` `Response`, specialized to the
two ways the body is read: `errorBody` is the result of the
`response.json()` parse attempted on the non-ok path (`none` when the
body is unparseable), and `body` is the typed payload read on the ok
path. -/
structure HttpResponse (α : Type) where
  ok : Bool
  status : Nat
  statusText : String
  errorBody : Option ErrorBody
  contentType : Option String
  body : α

/-- The outcome of one `fetch` call: either a response, or a thrown
value (transport-level failure). -/
inductive FetchOutcome (α : Type) where
  | response (r : HttpResponse α)
  | throwErr (e : JsError)

/-- JavaScript `String.prototype.includes`. -/
def jsIncludes (s sub : String) : Bool :=
  s.data.tails.any (fun t => sub.data.isPrefixOf t)

/-- JavaScript `String.prototype.startsWith`. -/
def strStartsWith (s p : String) : Bool :=
  p.data.isPrefixOf s.data

/-- `s` contains `sub` as a contiguous substring. -/
def strContainsSub (s sub : String) : Prop :=
  ∃ l r, s.data = l ++ sub.data ++ r

/-- The message of the error thrown on a non-ok response:
`` `API Error: ${errorData.message || errorData.error}` `` — the `||`
falls through to `error` exactly when `message` is falsy (empty). -/
def apiErrorMessage (ed : ErrorBody) : String :=
  "API Error: " ++ (if ed.message = "" then ed.error else ed.message)

/-- The error body synthesized when the non-ok response body fails to
parse: `{error: "HTTP_ERROR", message: `HTTP ${status}: ${statusText}`,
statusCode: status}`. -/
def synthesizedBody (status : Nat) (statusText : String) : ErrorBody :=
  ⟨"HTTP_ERROR", "HTTP " ++ toString status ++ ": " ++ statusText, status⟩

/-- `AgDevClient.request`, given the outcome of its single `fetch`
call. `Except.ok (some b)` is a parsed JSON body, `Except.ok none` is
the empty result `{} as T` returned for non-JSON content. The
`catch` block rethrows any `Error` instance unchanged and wraps any
other thrown value in `` `Network error: ${String(error)}` ``. -/
def request {α : Type} (f : FetchOutcome α) : Except JsError (Option α) :=
  match f with
  | .throwErr (JsError.errorObj m) => .error (JsError.errorObj m)
  | .throwErr (JsError.other v) => .error (JsError.errorObj ("Network error: " ++ v))
  | .response r =>
    if r.ok then
      match r.contentType with
      | some ct =>
        if jsIncludes ct "application/json" then .ok (some r.body) else .ok none
      | none => .ok none
    else
      match r.errorBody with
      | some ed => .error (JsError.errorObj (apiErrorMessage ed))
      | none =>
        .error (JsError.errorObj (apiErrorMessage (synthesizedBody r.status r.statusText)))

/-- `AgDevClient.getAgentRun`: a plain `request` at the `AgentRun`
payload type. -/
def getAgentRun (f : FetchOutcome AgentRun) : Except JsError (Option AgentRun) :=
  request f

/-- The immutable configuration of an `AgDevClient`. -/
structure AgDevClient where
  apiKey : String
  baseUrl : String
deriving DecidableEq, Repr

/-- `baseUrl.replace(/\/$/, "")`: remove a single trailing slash when
the string ends in one. -/
def stripTrailingSlash (s : String) : String :=
  if s.data.getLast? = some '/' then String.mk s.data.dropLast else s

/-- The `AgDevClient` constructor. -/
def mkAgDevClient (apiKey : String) (baseUrl : String) : AgDevClient :=
  ⟨apiKey, stripTrailingSlash baseUrl⟩

/-- The URL built by `request`: `` `${this.baseUrl}${endpoint}` ``. -/
def requestUrl (c : AgDevClient) (endpoint : String) : String :=
  c.baseUrl ++ endpoint

/-- The message of the error thrown when `waitForAgentRun` exceeds its
deadline: `` `Agent run ${runId} did not complete within ${timeout}ms` ``. -/
def timeoutMessage (runId : String) (timeout : Nat) : String :=
  "Agent run " ++ runId ++ " did not complete within " ++ toString timeout ++ "ms"

/-- Outcome of the polling loop: a terminal snapshot together with the
number of `getAgentRun` calls performed and the time at which the
terminal poll happened, or the timeout error message. -/
inductive WaitOutcome where
  | completed (run : AgentRun) (polls : Nat) (doneTime : Nat)
  | timedOut (message : String)
deriving DecidableEq, Repr

/-- The body of `waitForAgentRun`'s `while` loop. `poll k` is the
snapshot returned by the k-th `getAgentRun` call (0-indexed); `k` is
the number of polls already performed, `now` the current clock. Each
sleep advances the clock by `pollInterval` (polls themselves are
instantaneous in this time model). `fuel` bounds the number of
iterations so the recursion is total; `none` means fuel ran out. -/
def waitAux (poll : Nat → AgentRun) (runId : String)
    (pollInterval timeout startTime : Nat) :
    Nat → Nat → Nat → Option WaitOutcome
  | 0, _, _ => none
  | fuel+1, k, now =>
    if timeout = 0 ∨ now - startTime < timeout then
      let run := poll k
      if run.status.isTerminal then some (.completed run (k+1) now)
      else waitAux poll runId pollInterval timeout startTime fuel (k+1) (now + pollInterval)
    else
      some (.timedOut (timeoutMessage runId timeout))

/-- `AgDevClient.waitForAgentRun` with explicit `pollInterval` and
`timeout` options (source defaults: 1000 and 0) and start time. -/
def waitForAgentRun (poll : Nat → AgentRun) (runId : String)
    (pollInterval timeout startTime fuel : Nat) : Option WaitOutcome :=
  waitAux poll runId pollInterval timeout startTime fuel 0 startTime

/-- `Promise.all` over a list of already-settled promises, fan-in only:
all the underlying computations have been started (every element of the
list is present), and the aggregate rejects when any element rejects —
determinized to the first rejection in list order — or fulfills with
the values in list order. -/
def promiseAll {ε α : Type} : List (Except ε α) → Except ε (List α)
  | [] => .ok []
  | x :: xs =>
    match x with
    | .error e => .error e
    | .ok a =>
      match promiseAll xs with
      | .error e => .error e
      | .ok rest => .ok (a :: rest)

/-- `Agent.startRun`: create a run and return its id. `create` is the
oracle for `createAgentRun` (the remote side of one POST). -/
def startRun {ι : Type} (create : ι → Except JsError AgentRun) (input : ι) :
    Except JsError String :=
  match create input with
  | .error e => .error e
  | .ok run => .ok run.id

/-- `Agent.waitForRun`: `waitForAgentRun` followed by the reshaping to
`AgentRunResult`. `poll rid` is the poll trace of run `rid`. A timeout
surfaces as the thrown `Error`; exhausted fuel (a model artifact for
the unbounded loop) surfaces as a distinguished error. -/
def waitForRunModel (poll : String → Nat → AgentRun)
    (pollInterval timeout startTime fuel : Nat) (runId : String) :
    Except JsError AgentRunResult :=
  match waitForAgentRun (poll runId) runId pollInterval timeout startTime fuel with
  | some (.completed run _ _) => .ok (toAgentRunResult run)
  | some (.timedOut msg) => .error (JsError.errorObj msg)
  | none => .error (JsError.errorObj "poll budget exhausted")

/-- `Agent.runBatch`: start all runs (`Promise.all` over one
`startRun` per input), then — only once every creation has returned —
wait for all of them (`Promise.all` over one wait per created id),
returning results in input order. -/
def runBatch {ι : Type} (create : ι → Except JsError AgentRun)
    (wait : String → Except JsError AgentRunResult) (inputs : List ι) :
    Except JsError (List AgentRunResult) :=
  match promiseAll (inputs.map (fun x => startRun create x)) with
  | .error e => .error e
  | .ok ids => promiseAll (ids.map wait)

/-! ### Concrete sample data used to instantiate the theorems -/

/-- A run snapshot with a given id and status. -/
def sampleRun (rid : String) (s : Status) : AgentRun :=
  ⟨rid, "agent-1", s, [], none, "t0", "t1", none⟩

/-- Poll trace: running for the first 2 polls, done from the 3rd on. -/
def pollTwoRunning : Nat → AgentRun := fun i =>
  if i < 2 then sampleRun "run-1" Status.running else sampleRun "run-1" Status.done

/-- Poll trace: pending for the first 50 polls, done from the 51st on. -/
def pollFifty : Nat → AgentRun := fun i =>
  if i < 50 then sampleRun "run-1" Status.pending else sampleRun "run-1" Status.done

/-- Poll trace that never reaches a terminal status. -/
def pollNever : Nat → AgentRun := fun _ => sampleRun "run-2" Status.pending

/-- A freshly created (pending) run for a given input string. -/
def mkRunFor (x : String) : AgentRun := sampleRun (x ++ "-run") Status.pending

/-- Per-run index of the first terminal poll: the run of input `a`
finishes last, the run of input `c` finishes first. -/
def nfDemo : String → Nat := fun rid =>
  if rid = "a-run" then 2 else if rid = "b-run" then 1 else 0

/-- Per-run poll traces realizing `nfDemo`. -/
def pollDemo : String → Nat → AgentRun := fun rid j =>
  if j < nfDemo rid then sampleRun rid Status.running else sampleRun rid Status.done

/-- A creation oracle where the creation for input `"b"` fails. -/
def createDemo : String → Except JsError AgentRun := fun x =>
  if x = "b" then Except.error (JsError.errorObj "API Error: boom")
  else Except.ok (mkRunFor x)

/-- A wait oracle where every wait succeeds. -/
def waitDemo : String → Except JsError AgentRunResult := fun rid =>
  Except.ok (toAgentRunResult (sampleRun rid Status.done))

/-- A creation oracle where every creation succeeds. -/
def createDemoOk : String → Except JsError AgentRun := fun x =>
  Except.ok (mkRunFor x)

/-- A wait oracle where the wait for run `"b-run"` fails (for example
by timing out) and every other wait succeeds. -/
def waitDemoFail : String → Except JsError AgentRunResult := fun rid =>
  if rid = "b-run" then
    Except.error (JsError.errorObj (timeoutMessage "b-run" 5000))
  else Except.ok (toAgentRunResult (sampleRun rid Status.done))

/-- A wait oracle where every wait fails. -/
def waitDemo2 : String → Except JsError AgentRunResult := fun _ =>
  Except.error (JsError.errorObj "never reached")

/-- A 404 response whose body parses as the structured error shape but
with an empty `message` field. -/
def resp404EmptyMessage : HttpResponse Unit :=
  ⟨false, 404, "Not Found", some ⟨"NOT_FOUND", "", 404⟩, none, ()⟩

/-- The 404 response of the spec example. -/
def resp404NoSuchRun : HttpResponse Unit :=
  ⟨false, 404, "Not Found", some ⟨"NOT_FOUND", "no such run", 404⟩, none, ()⟩

/-- A non-2xx response whose body is unparseable. -/
def respUnparseable : HttpResponse Unit :=
  ⟨false, 502, "Bad Gateway", none, none, ()⟩

/-- A 204 no-content response (as answered to a DELETE). -/
def resp204 : HttpResponse Unit :=
  ⟨true, 204, "No Content", none, none, ()⟩

/-- A 404 run-fetch response with a structured body. -/
def run404resp : HttpResponse AgentRun :=
  ⟨false, 404, "Not Found", some ⟨"NOT_FOUND", "no such run", 404⟩, none,
    sampleRun "r" Status.pending⟩

/-- A 500 run-fetch response carrying the same body message. -/
def run500resp : HttpResponse AgentRun :=
  ⟨false, 500, "Internal Server Error", some ⟨"INTERNAL_ERROR", "no such run", 500⟩, none,
    sampleRun "r" Status.pending⟩

/-- A successful JSON run-fetch response. -/
def runOkResp : HttpResponse AgentRun :=
  ⟨true, 200, "OK", none, some "application/json; charset=utf-8",
    sampleRun "run-9" Status.done⟩

end AgDev

namespace AgDev

/-! ### Helper lemmas about the polling loop -/

theorem waitAux_completes (poll : Nat → AgentRun) (runId : String)
    (pollInterval timeout startTime N : Nat)
    (hnt : ∀ i, i < N → (poll i).status.isTerminal = false)
    (ht : (poll N).status.isTerminal = true)
    (hto : timeout = 0 ∨ N * pollInterval < timeout) :
    ∀ fuel k now, k ≤ N → N - k < fuel → now = startTime + k * pollInterval →
      waitAux poll runId pollInterval timeout startTime fuel k now
        = some (WaitOutcome.completed (poll N) (N + 1) (startTime + N * pollInterval)) := by
  intro fuel
  induction fuel with
  | zero =>
    intro k now _ h2 _
    omega
  | succ fuel ih =>
    intro k now hk hf hnow
    have hcond : timeout = 0 ∨ now - startTime < timeout := by
      rcases hto with h | h
      · exact Or.inl h
      · refine Or.inr ?_
        have hkN : k * pollInterval ≤ N * pollInterval :=
          Nat.mul_le_mul_right _ hk
        subst hnow
        revert hkN h
        generalize k * pollInterval = a
        generalize N * pollInterval = b
        intro hkN h
        omega
    simp only [waitAux, if_pos hcond]
    cases hterm : (poll k).status.isTerminal with
    | true =>
      have hkN : k = N := by
        by_contra hne
        have hlt : k < N := lt_of_le_of_ne hk hne
        rw [hnt k hlt] at hterm
        exact Bool.false_ne_true hterm
      subst hkN
      simp [hterm, hnow]
    | false =>
      have hlt : k < N := by
        rcases Nat.lt_or_ge k N with h | h
        · exact h
        · have : k = N := Nat.le_antisymm hk h
          rw [this, ht] at hterm
          exact absurd hterm (by simp)
      simp only [hterm, Bool.false_eq_true, if_false]
      refine ih (k + 1) (now + pollInterval) hlt (by omega) ?_
      subst hnow
      rw [Nat.succ_mul]
      ring

theorem waitAux_never_timedOut (poll : Nat → AgentRun) (runId : String)
    (pollInterval startTime : Nat) :
    ∀ fuel k now msg,
      waitAux poll runId pollInterval 0 startTime fuel k now
        ≠ some (WaitOutcome.timedOut msg) := by
  intro fuel
  induction fuel with
  | zero =>
    intro k now msg h
    simp [waitAux] at h
  | succ fuel ih =>
    intro k now msg h
    have hcond : (0 : Nat) = 0 ∨ now - startTime < 0 := Or.inl rfl
    rw [waitAux, if_pos hcond] at h
    cases hterm : (poll k).status.isTerminal with
    | true =>
      simp only [hterm, if_pos] at h
      exact WaitOutcome.noConfusion (Option.some.inj h)
    | false =>
      simp only [hterm, Bool.false_eq_true, if_false] at h
      exact ih (k + 1) (now + pollInterval) msg h

theorem waitAux_timedOut_inv (poll : Nat → AgentRun) (runId : String)
    (pollInterval timeout startTime : Nat) :
    ∀ fuel k now msg,
      now = startTime + k * pollInterval →
      (∀ i, i < k → (poll i).status.isTerminal = false) →
      waitAux poll runId pollInterval timeout startTime fuel k now
        = some (WaitOutcome.timedOut msg) →
      0 < timeout ∧ msg = timeoutMessage runId timeout ∧
        ∃ j, timeout ≤ j * pollInterval ∧
          ∀ i, i < j → (poll i).status.isTerminal = false := by
  intro fuel
  induction fuel with
  | zero =>
    intro k now msg _ _ h
    simp [waitAux] at h
  | succ fuel ih =>
    intro k now msg hnow hpre h
    by_cases hcond : timeout = 0 ∨ now - startTime < timeout
    · rw [waitAux, if_pos hcond] at h
      cases hterm : (poll k).status.isTerminal with
      | true =>
        simp only [hterm, if_pos] at h
        exact WaitOutcome.noConfusion (Option.some.inj h)
      | false =>
        simp only [hterm, Bool.false_eq_true, if_false] at h
        refine ih (k + 1) (now + pollInterval) msg ?_ ?_ h
        · subst hnow
          rw [Nat.succ_mul]
          ring
        · intro i hi
          rcases Nat.lt_or_ge i k with hik | hik
          · exact hpre i hik
          · have : i = k := by omega
            rw [this]
            exact hterm
    · rw [waitAux, if_neg hcond] at h
      push_neg at hcond
      obtain ⟨ht0, hdl⟩ := hcond
      have hmsg : msg = timeoutMessage runId timeout :=
        (WaitOutcome.timedOut.inj (Option.some.inj h)).symm
      refine ⟨Nat.pos_of_ne_zero ht0, hmsg, k, ?_, hpre⟩
      subst hnow
      revert hdl
      generalize k * pollInterval = a
      intro hdl
      omega

theorem waitAux_times_out (poll : Nat → AgentRun) (runId : String)
    (pollInterval timeout startTime : Nat)
    (ht : 0 < timeout)
    (hnt : ∀ i, i * pollInterval < timeout → (poll i).status.isTerminal = false) :
    ∀ fuel k now,
      now = startTime + k * pollInterval →
      timeout ≤ (k + fuel) * pollInterval →
      waitAux poll runId pollInterval timeout startTime (fuel + 1) k now
        = some (WaitOutcome.timedOut (timeoutMessage runId timeout)) := by
  intro fuel
  induction fuel with
  | zero =>
    intro k now hnow hf
    rw [Nat.add_zero] at hf
    have hcond : ¬ (timeout = 0 ∨ now - startTime < timeout) := by
      push_neg
      refine ⟨by omega, ?_⟩
      subst hnow
      revert hf
      generalize k * pollInterval = a
      intro hf
      omega
    rw [waitAux, if_neg hcond]
  | succ fuel ih =>
    intro k now hnow hf
    rcases Nat.lt_or_ge (k * pollInterval) timeout with hklt | hkge
    · have hcond : timeout = 0 ∨ now - startTime < timeout := by
        refine Or.inr ?_
        subst hnow
        revert hklt
        generalize k * pollInterval = a
        intro hklt
        omega
      rw [waitAux, if_pos hcond]
      have hterm := hnt k hklt
      simp only [hterm, Bool.false_eq_true, if_false]
      refine ih (k + 1) (now + pollInterval) ?_ ?_
      · subst hnow
        rw [Nat.succ_mul]
        ring
      · have harr : k + 1 + fuel = k + (fuel + 1) := by omega
        rw [harr]
        exact hf
    · have hcond : ¬ (timeout = 0 ∨ now - startTime < timeout) := by
        push_neg
        refine ⟨by omega, ?_⟩
        subst hnow
        revert hkge
        generalize k * pollInterval = a
        intro hkge
        omega
      rw [waitAux, if_neg hcond]

/-! ### Helper lemmas about promiseAll -/

theorem promiseAll_congr_ok {ε α β : Type} (f : β → Except ε α) (g : β → α) :
    ∀ l : List β, (∀ x, x ∈ l → f x = Except.ok (g x)) →
      promiseAll (l.map f) = Except.ok (l.map g) := by
  intro l
  induction l with
  | nil => intro _; rfl
  | cons a l ih =>
    intro h
    have ha : f a = Except.ok (g a) := h a (List.mem_cons_self a l)
    have hl : promiseAll (l.map f) = Except.ok (l.map g) :=
      ih (fun x hx => h x (List.mem_cons_of_mem a hx))
    simp [promiseAll, ha, hl]

theorem promiseAll_error_of_mem {ε α β : Type} (f : β → Except ε α) :
    ∀ (l : List β) (x : β) (e : ε), x ∈ l → f x = Except.error e →
      ∃ e2, promiseAll (l.map f) = Except.error e2 := by
  intro l
  induction l with
  | nil =>
    intro x e hx _
    exact absurd hx (List.not_mem_nil x)
  | cons a l ih =>
    intro x e hx he
    rcases List.mem_cons.mp hx with h | h
    · subst h
      exact ⟨e, by simp [promiseAll, he]⟩
    · obtain ⟨e2, he2⟩ := ih x e h he
      cases hfa : f a with
      | error ea => exact ⟨ea, by simp [promiseAll, hfa]⟩
      | ok va => exact ⟨e2, by simp [promiseAll, hfa, he2]⟩

theorem promiseAll_ok_length {ε α : Type} :
    ∀ (es : List (Except ε α)) (xs : List α),
      promiseAll es = Except.ok xs → xs.length = es.length := by
  intro es
  induction es with
  | nil =>
    intro xs h
    simp only [promiseAll] at h
    cases h
    rfl
  | cons a es ih =>
    intro xs h
    cases a with
    | error e => simp [promiseAll] at h
    | ok v =>
      simp only [promiseAll] at h
      cases hrest : promiseAll es with
      | error e => rw [hrest] at h; cases h
      | ok rest =>
        rw [hrest] at h
        cases h
        simp [ih rest hrest]

theorem promiseAll_map_ok_mem {ε α β : Type} (f : β → Except ε α) :
    ∀ (l : List β) (ys : List α), promiseAll (l.map f) = Except.ok ys →
      ∀ x, x ∈ l → ∃ y, f x = Except.ok y := by
  intro l
  induction l with
  | nil =>
    intro ys _ x hx
    exact absurd hx (List.not_mem_nil x)
  | cons a l ih =>
    intro ys h x hx
    cases hfa : f a with
    | error ea => simp [promiseAll, hfa] at h
    | ok va =>
      simp only [List.map_cons, promiseAll, hfa] at h
      cases hrest : promiseAll (l.map f) with
      | error e => rw [hrest] at h; cases h
      | ok rest =>
        rcases List.mem_cons.mp hx with hxa | hxl
        · subst hxa
          exact ⟨va, hfa⟩
        · exact ih rest hrest x hxl

/-! ### Claim theorems -/

/-- C1: for every run id, `waitForAgentRun` repeatedly calls
`getAgentRun` and returns the run snapshot exactly when a poll observes
a terminal status (`done` or `error`): if the transport reports a
non-terminal status for the first N polls and a terminal status on poll
N+1, `waitForAgentRun` performs exactly N+1 `getAgentRun` invocations
(the `polls` component), sleeps `pollInterval` between consecutive
polls (the terminal poll happens at `startTime + N * pollInterval`),
and returns that terminal snapshot. -/
theorem waitForAgentRun_first_terminal (poll : Nat → AgentRun) (runId : String)
    (pollInterval timeout startTime fuel N : Nat)
    (hnt : ∀ i, i < N → (poll i).status.isTerminal = false)
    (ht : (poll N).status.isTerminal = true)
    (hto : timeout = 0 ∨ N * pollInterval < timeout)
    (hfuel : N < fuel) :
    waitForAgentRun poll runId pollInterval timeout startTime fuel
      = some (WaitOutcome.completed (poll N) (N + 1) (startTime + N * pollInterval)) := by
  exact waitAux_completes poll runId pollInterval timeout startTime N hnt ht hto
    fuel 0 startTime (Nat.zero_le N) (by omega) (by simp)

/-- Witness for C1: a run that is running for 2 polls and done on the
3rd is returned after exactly 3 polls, at time 2 * 1000. -/
theorem waitForAgentRun_first_terminal_witness :
    waitForAgentRun pollTwoRunning "run-1" 1000 0 0 5
      = some (WaitOutcome.completed (pollTwoRunning 2) (2 + 1) (0 + 2 * 1000)) := by
  exact waitForAgentRun_first_terminal pollTwoRunning "run-1" 1000 0 0 5 2
    (by decide) (by decide) (Or.inl rfl) (by decide)

/-- C2: `waitForAgentRun` fails with a timeout error iff `timeout > 0`
and the deadline elapses before a terminal status is observed.
Conjuncts: (1) with `timeout = 0` the call never times out; (2) with
`timeout = 0` it still succeeds when a later poll returns a terminal
status; (3) any timeout error implies `timeout > 0`, carries the exact
message naming the run id and the timeout value, and the deadline had
elapsed at the top of a loop iteration before any terminal status was
observed; (4) conversely, if `timeout > 0` and every poll made strictly
before the deadline is non-terminal, the call times out with that
message — the status at or after the deadline is irrelevant because the
deadline check happens at the top of each loop iteration, before the
poll. -/
theorem waitForAgentRun_timeout_spec (poll : Nat → AgentRun) (runId : String)
    (pollInterval timeout startTime fuel N : Nat) :
    (timeout = 0 → ∀ msg,
      waitForAgentRun poll runId pollInterval timeout startTime fuel
        ≠ some (WaitOutcome.timedOut msg))
    ∧ (timeout = 0 → (∀ i, i < N → (poll i).status.isTerminal = false) →
        (poll N).status.isTerminal = true → N < fuel →
        waitForAgentRun poll runId pollInterval timeout startTime fuel
          = some (WaitOutcome.completed (poll N) (N + 1) (startTime + N * pollInterval)))
    ∧ (∀ msg,
        waitForAgentRun poll runId pollInterval timeout startTime fuel
          = some (WaitOutcome.timedOut msg) →
        0 < timeout ∧ msg = timeoutMessage runId timeout ∧
          ∃ j, timeout ≤ j * pollInterval ∧
            ∀ i, i < j → (poll i).status.isTerminal = false)
    ∧ (0 < timeout → 0 < pollInterval → timeout < fuel →
        (∀ i, i * pollInterval < timeout → (poll i).status.isTerminal = false) →
        waitForAgentRun poll runId pollInterval timeout startTime fuel
          = some (WaitOutcome.timedOut (timeoutMessage runId timeout))) := by
  refine ⟨?_, ?_, ?_, ?_⟩
  · intro h0 msg
    subst h0
    exact waitAux_never_timedOut poll runId pollInterval startTime fuel 0 startTime msg
  · intro h0 hnt ht hfuel
    exact waitAux_completes poll runId pollInterval timeout startTime N hnt ht
      (Or.inl h0) fuel 0 startTime (Nat.zero_le N) (by omega) (by simp)
  · intro msg h
    exact waitAux_timedOut_inv poll runId pollInterval timeout startTime fuel 0 startTime
      msg (by simp) (fun i hi => absurd hi (Nat.not_lt_zero i)) h
  · intro ht hp hfuel hnt
    obtain ⟨f, rfl⟩ : ∃ f, fuel = f + 1 := ⟨fuel - 1, by omega⟩
    refine waitAux_times_out poll runId pollInterval timeout startTime ht hnt
      f 0 startTime (by simp) ?_
    have h1 : timeout ≤ f := by omega
    calc timeout ≤ f := h1
      _ = f * 1 := (Nat.mul_one f).symm
      _ ≤ f * pollInterval := Nat.mul_le_mul_left f hp
      _ = (0 + f) * pollInterval := by rw [Nat.zero_add]

/-- Witness for C2: with `timeout = 0`, 50 pending polls followed by a
done poll still succeed after exactly 51 polls; with `timeout = 3500`
and a run that never completes, the call times out with the message
naming the run id and the timeout value. -/
theorem waitForAgentRun_timeout_spec_witness :
    waitForAgentRun pollFifty "run-1" 1000 0 0 51
      = some (WaitOutcome.completed (pollFifty 50) (50 + 1) (0 + 50 * 1000))
    ∧ waitForAgentRun pollNever "run-2" 1000 3500 0 4000
      = some (WaitOutcome.timedOut (timeoutMessage "run-2" 3500)) := by
  constructor
  · exact (waitForAgentRun_timeout_spec pollFifty "run-1" 1000 0 0 51 50).2.1
      rfl (by decide) (by decide) (by decide)
  · exact (waitForAgentRun_timeout_spec pollNever "run-2" 1000 3500 0 4000 0).2.2.2
      (by decide) (by decide) (by decide) (fun i _ => rfl)

/-- C3: for every input list, `runBatch` returns a result list of the
same length whose i-th entry is the terminal run result of the run
created for the i-th input. The per-run first-terminal poll index `nf`
is arbitrary, so the result ordering follows the caller-supplied input
order by index correspondence even when runs complete in a different
order (for example when the run of the last input has first-terminal
index 0 and the run of the first input a larger one). -/
theorem runBatch_input_order {ι : Type} (inputs : List ι) (createF : ι → AgentRun)
    (poll : String → Nat → AgentRun) (nf : String → Nat)
    (pollInterval startTime fuel : Nat)
    (h : ∀ x, x ∈ inputs →
      (∀ j, j < nf ((createF x).id) →
        (poll ((createF x).id) j).status.isTerminal = false)
      ∧ (poll ((createF x).id) (nf ((createF x).id))).status.isTerminal = true
      ∧ nf ((createF x).id) < fuel) :
    runBatch (fun x => Except.ok (createF x))
        (waitForRunModel poll pollInterval 0 startTime fuel) inputs
      = Except.ok (inputs.map (fun x =>
          toAgentRunResult (poll ((createF x).id) (nf ((createF x).id))))) := by
  have h1 : promiseAll (inputs.map (fun x => startRun (fun y => Except.ok (createF y)) x))
      = Except.ok (inputs.map (fun x => (createF x).id)) :=
    promiseAll_congr_ok _ _ inputs (fun x _ => rfl)
  simp only [runBatch, h1, List.map_map]
  refine promiseAll_congr_ok _ _ inputs ?_
  intro x hx
  obtain ⟨hnt, ht, hfuel⟩ := h x hx
  have hw : waitForAgentRun (poll ((createF x).id)) ((createF x).id)
      pollInterval 0 startTime fuel
      = some (WaitOutcome.completed (poll ((createF x).id) (nf ((createF x).id)))
          (nf ((createF x).id) + 1)
          (startTime + nf ((createF x).id) * pollInterval)) :=
    waitAux_completes _ _ pollInterval 0 startTime _ hnt ht (Or.inl rfl)
      fuel 0 startTime (Nat.zero_le _) (by omega) (by simp)
  simp only [Function.comp_apply, waitForRunModel, hw]

/-- Witness for C3: three inputs whose runs complete in reverse order
(the run of `"c"` is terminal from poll 0, of `"b"` from poll 1, of
`"a"` from poll 2) still yield results in input order `a, b, c`. -/
theorem runBatch_input_order_witness :
    runBatch (fun x => Except.ok (mkRunFor x)) (waitForRunModel pollDemo 1000 0 0 10)
        ["a", "b", "c"]
      = Except.ok (["a", "b", "c"].map (fun x =>
          toAgentRunResult (pollDemo ((mkRunFor x).id) (nfDemo ((mkRunFor x).id))))) := by
  exact runBatch_input_order ["a", "b", "c"] mkRunFor pollDemo nfDemo 1000 0 10 (by decide)

/-- C4: `runBatch` is all-or-nothing: if any individual creation or any
wait fails, the whole batch call fails and no partial result list is
returned. Conjunct 1: if the creation for some input fails, the whole
batch fails, and the outcome does not even depend on the wait oracle
(no `waitForRun` is issued before all creations have returned
successfully). Conjunct 2: once all creations have returned run ids,
a failing wait for any of those ids fails the whole batch. Conjunct 3:
a successful batch returns one result per input (never a partial list)
and implies that every creation and every wait succeeded. -/
theorem runBatch_all_or_nothing {ι : Type} (inputs : List ι)
    (create : ι → Except JsError AgentRun)
    (wait wait2 : String → Except JsError AgentRunResult) :
    ((∃ x, x ∈ inputs ∧ ∃ e, create x = Except.error e) →
      (∃ e2, runBatch create wait inputs = Except.error e2) ∧
        runBatch create wait inputs = runBatch create wait2 inputs)
    ∧ (∀ ids, promiseAll (inputs.map (fun x => startRun create x)) = Except.ok ids →
        (∃ i, i ∈ ids ∧ ∃ e, wait i = Except.error e) →
        ∃ e2, runBatch create wait inputs = Except.error e2)
    ∧ (∀ l, runBatch create wait inputs = Except.ok l →
        l.length = inputs.length
        ∧ (∀ x, x ∈ inputs → ∃ r, create x = Except.ok r)
        ∧ ∃ ids, promiseAll (inputs.map (fun x => startRun create x)) = Except.ok ids
            ∧ ∀ i, i ∈ ids → ∃ r2, wait i = Except.ok r2) := by
  refine ⟨?_, ?_, ?_⟩
  · rintro ⟨x, hx, e, he⟩
    have hs : startRun create x = Except.error e := by
      simp only [startRun, he]
    obtain ⟨e2, he2⟩ :=
      promiseAll_error_of_mem (fun y => startRun create y) inputs x e hx hs
    constructor
    · exact ⟨e2, by simp only [runBatch, he2]⟩
    · simp only [runBatch, he2]
  · rintro ids hids ⟨i, hi, e, he⟩
    obtain ⟨e2, he2⟩ := promiseAll_error_of_mem wait ids i e hi he
    exact ⟨e2, by simp only [runBatch, hids, he2]⟩
  · intro l hl
    simp only [runBatch] at hl
    cases hp : promiseAll (inputs.map fun x => startRun create x) with
    | error e =>
      rw [hp] at hl
      cases hl
    | ok ids =>
      rw [hp] at hl
      have hlen1 : l.length = (ids.map wait).length := promiseAll_ok_length _ _ hl
      have hlen2 : ids.length = (inputs.map fun x => startRun create x).length :=
        promiseAll_ok_length _ _ hp
      rw [List.length_map] at hlen1 hlen2
      refine ⟨by rw [hlen1, hlen2], ?_, ids, rfl, ?_⟩
      · intro x hx
        obtain ⟨y, hy⟩ :=
          promiseAll_map_ok_mem (fun x => startRun create x) inputs ids hp x hx
        cases hc : create x with
        | error e =>
          rw [startRun, hc] at hy
          cases hy
        | ok r => exact ⟨r, rfl⟩
      · intro i hi
        exact promiseAll_map_ok_mem wait ids l hl i hi

/-- Witness for C4: with one failing creation (`"b"`) among three, the
batch call fails and the outcome is identical whether the wait oracle
always succeeds or always fails — no partial result list is returned;
and with all three creations succeeding but the wait for `"b-run"`
failing, the batch call also fails. -/
theorem runBatch_all_or_nothing_witness :
    ((∃ e2, runBatch createDemo waitDemo ["a", "b", "c"] = Except.error e2)
    ∧ runBatch createDemo waitDemo ["a", "b", "c"]
        = runBatch createDemo waitDemo2 ["a", "b", "c"])
    ∧ (∃ e2, runBatch createDemoOk waitDemoFail ["a", "b", "c"] = Except.error e2) := by
  constructor
  · exact (runBatch_all_or_nothing ["a", "b", "c"] createDemo waitDemo waitDemo2).1
      ⟨"b", by decide, JsError.errorObj "API Error: boom", rfl⟩
  · exact (runBatch_all_or_nothing ["a", "b", "c"] createDemoOk waitDemoFail waitDemo2).2.1
      ["a-run", "b-run", "c-run"] rfl
      ⟨"b-run", by decide, JsError.errorObj (timeoutMessage "b-run" 5000), rfl⟩

/-- C10: `runBatch` on the empty input list resolves to the empty
result list, and the outcome is independent of both the creation and
the wait oracles — zero `createRun` calls and zero `getRun` polls can
influence it, so the call cannot fail or time out. -/
theorem runBatch_empty {ι : Type} (create create2 : ι → Except JsError AgentRun)
    (wait wait2 : String → Except JsError AgentRunResult) :
    runBatch create wait ([] : List ι) = Except.ok []
    ∧ runBatch create wait ([] : List ι) = runBatch create2 wait2 [] :=
  ⟨rfl, rfl⟩

/-! ### String helper lemmas -/

theorem strData_append (s t : String) : (s ++ t).data = s.data ++ t.data := by
  cases s
  cases t
  rfl

theorem httpMessage_ne_empty (s : Nat) (t : String) :
    "HTTP " ++ toString s ++ ": " ++ t ≠ "" := by
  intro h
  have hd : ("HTTP " ++ toString s ++ ": " ++ t).data = [] := by rw [h]
  simp only [strData_append] at hd
  simp at hd

/-- C5 counterexample: a non-2xx response whose body parses as the
structured error shape `{error, message, statusCode}` but with an empty
`message` field surfaces `"API Error: NOT_FOUND"` — the `error` field,
not `"API Error: "` followed by the (empty) `message` field, because
the source's `errorData.message || errorData.error` falls through on a
falsy message. -/
theorem request_error_message_counterexample :
    resp404EmptyMessage.ok = false
    ∧ resp404EmptyMessage.errorBody = some ⟨"NOT_FOUND", "", 404⟩
    ∧ request (FetchOutcome.response resp404EmptyMessage)
        = Except.error (JsError.errorObj "API Error: NOT_FOUND")
    ∧ "API Error: NOT_FOUND" ≠ "API Error: " ++ "" :=
  ⟨rfl, rfl, rfl, by decide⟩

/-- C5 (amended): for a non-2xx response whose body parses as the
structured error shape, the surfaced message is exactly `"API Error: "`
followed by the body's `message` field when that field is nonempty, and
by the body's `error` field when the `message` field is empty (absent);
when the body is unparseable, the surfaced message contains the literal
HTTP status code and status text. -/
theorem request_error_message_amended {α : Type} (r : HttpResponse α) (b : ErrorBody) :
    (r.ok = false → r.errorBody = some b → b.message ≠ "" →
      request (FetchOutcome.response r)
        = Except.error (JsError.errorObj ("API Error: " ++ b.message)))
    ∧ (r.ok = false → r.errorBody = some b → b.message = "" →
      request (FetchOutcome.response r)
        = Except.error (JsError.errorObj ("API Error: " ++ b.error)))
    ∧ (r.ok = false → r.errorBody = none →
      request (FetchOutcome.response r)
        = Except.error (JsError.errorObj
            ("API Error: " ++ ("HTTP " ++ toString r.status ++ ": " ++ r.statusText)))
      ∧ strContainsSub
          ("API Error: " ++ ("HTTP " ++ toString r.status ++ ": " ++ r.statusText))
          (toString r.status)
      ∧ strContainsSub
          ("API Error: " ++ ("HTTP " ++ toString r.status ++ ": " ++ r.statusText))
          r.statusText) := by
  refine ⟨?_, ?_, ?_⟩
  · intro hok hbody hmsg
    simp [request, hok, hbody, apiErrorMessage, hmsg]
  · intro hok hbody hmsg
    simp [request, hok, hbody, apiErrorMessage, hmsg]
  · intro hok hbody
    refine ⟨?_, ?_, ?_⟩
    · have hne : "HTTP " ++ toString r.status ++ ": " ++ r.statusText ≠ "" :=
        httpMessage_ne_empty r.status r.statusText
      simp [request, hok, hbody, apiErrorMessage, synthesizedBody, hne]
    · refine ⟨"API Error: ".data ++ "HTTP ".data, ": ".data ++ r.statusText.data, ?_⟩
      simp [strData_append]
    · refine ⟨"API Error: ".data ++ "HTTP ".data ++ (toString r.status).data ++ ": ".data,
        [], ?_⟩
      simp [strData_append]

/-- Witness for C5 (amended): the spec's example body yields exactly
`"API Error: no such run"`, and an unparseable 502 body yields a
message containing `502` and `Bad Gateway`. -/
theorem request_error_message_amended_witness :
    request (FetchOutcome.response resp404NoSuchRun)
      = Except.error (JsError.errorObj ("API Error: " ++ "no such run"))
    ∧ (request (FetchOutcome.response respUnparseable)
        = Except.error (JsError.errorObj
            ("API Error: " ++
              ("HTTP " ++ toString respUnparseable.status ++ ": "
                ++ respUnparseable.statusText)))
      ∧ strContainsSub
          ("API Error: " ++
            ("HTTP " ++ toString respUnparseable.status ++ ": "
              ++ respUnparseable.statusText))
          (toString respUnparseable.status)
      ∧ strContainsSub
          ("API Error: " ++
            ("HTTP " ++ toString respUnparseable.status ++ ": "
              ++ respUnparseable.statusText))
          respUnparseable.statusText) := by
  constructor
  · exact (request_error_message_amended resp404NoSuchRun
      ⟨"NOT_FOUND", "no such run", 404⟩).1 rfl rfl (by decide)
  · exact (request_error_message_amended respUnparseable
      ⟨"NOT_FOUND", "no such run", 404⟩).2.2 rfl rfl

/-- C6 counterexample: a transport-level failure whose thrown value is
an `Error` instance (as Node's `fetch` failures are) is rethrown
unchanged: the surfaced error does not start with `"Network error"`
(no wrapping happened), and a transport failure can surface an error
identical to the `ApiError` of a non-2xx response, so the two are not
distinct. -/
theorem request_network_counterexample :
    request (FetchOutcome.throwErr
        (JsError.errorObj "getaddrinfo ENOTFOUND api.ag.dev") : FetchOutcome Unit)
      = Except.error (JsError.errorObj "getaddrinfo ENOTFOUND api.ag.dev")
    ∧ strStartsWith "getaddrinfo ENOTFOUND api.ag.dev" "Network error" = false
    ∧ request (FetchOutcome.throwErr
        (JsError.errorObj "API Error: no such run") : FetchOutcome Unit)
      = request (FetchOutcome.response resp404NoSuchRun) :=
  ⟨rfl, by decide, rfl⟩

/-- C6 (amended): transport-level failures whose thrown value is an
`Error` instance propagate unchanged out of `request`; only a thrown
non-`Error` value is wrapped in an error whose message is
`"Network error: "` followed by its string rendering. There is no
`NetworkError` type distinct from the API error. -/
theorem request_transport_amended {α : Type} (m v : String) :
    (request (FetchOutcome.throwErr (JsError.errorObj m) : FetchOutcome α)
      = Except.error (JsError.errorObj m))
    ∧ (request (FetchOutcome.throwErr (JsError.other v) : FetchOutcome α)
      = Except.error (JsError.errorObj ("Network error: " ++ v))) :=
  ⟨rfl, rfl⟩

/-- C7 counterexample: a 404 run fetch and a 500 run fetch whose bodies
carry the same message produce identical error values, so the caller
cannot distinguish a `NotFound` from any other API error. -/
theorem getAgentRun_notFound_counterexample :
    getAgentRun (FetchOutcome.response run404resp)
      = getAgentRun (FetchOutcome.response run500resp)
    ∧ getAgentRun (FetchOutcome.response run404resp)
      = Except.error (JsError.errorObj "API Error: no such run")
    ∧ run404resp.status = 404 ∧ run500resp.status = 500 :=
  ⟨rfl, rfl, rfl, rfl⟩

/-- C7 (amended): when the remote reports HTTP 404 for a run fetch,
`getAgentRun` fails with the generic API error carrying the body's
message — not a `NotFound` specialization distinguishable by type; on
success it returns the current run snapshot unchanged. -/
theorem getAgentRun_amended (r : HttpResponse AgentRun) (b : ErrorBody) (ct : String) :
    (r.ok = false → r.status = 404 → r.errorBody = some b → b.message ≠ "" →
      getAgentRun (FetchOutcome.response r)
        = Except.error (JsError.errorObj ("API Error: " ++ b.message)))
    ∧ (r.ok = true → r.contentType = some ct →
        jsIncludes ct "application/json" = true →
        getAgentRun (FetchOutcome.response r) = Except.ok (some r.body)) := by
  constructor
  · intro hok _ hbody hmsg
    simp [getAgentRun, request, hok, hbody, apiErrorMessage, hmsg]
  · intro hok hct hjson
    simp [getAgentRun, request, hok, hct, hjson]

/-- Witness for C7 (amended): the 404 response surfaces
`"API Error: no such run"`, and a successful JSON response returns the
snapshot unchanged. -/
theorem getAgentRun_amended_witness :
    getAgentRun (FetchOutcome.response run404resp)
      = Except.error (JsError.errorObj ("API Error: " ++ "no such run"))
    ∧ getAgentRun (FetchOutcome.response runOkResp)
      = Except.ok (some runOkResp.body) := by
  constructor
  · exact (getAgentRun_amended run404resp
      ⟨"NOT_FOUND", "no such run", 404⟩ "x").1 rfl rfl rfl (by decide)
  · exact (getAgentRun_amended runOkResp ⟨"x", "y", 0⟩
      "application/json; charset=utf-8").2 rfl rfl (by decide)

/-- C8: for every successful (2xx, `ok`) response, `request` returns
the parsed JSON body when the content type includes
`application/json`, and otherwise (non-JSON content type, or no
content type at all as in a 204 no-content DELETE answer) returns the
empty result value without attempting a JSON parse. -/
theorem request_success_spec {α : Type} (r : HttpResponse α) (ct : String) :
    (r.ok = true → r.contentType = some ct →
      jsIncludes ct "application/json" = true →
      request (FetchOutcome.response r) = Except.ok (some r.body))
    ∧ (r.ok = true → r.contentType = some ct →
      jsIncludes ct "application/json" = false →
      request (FetchOutcome.response r) = Except.ok none)
    ∧ (r.ok = true → r.contentType = none →
      request (FetchOutcome.response r) = Except.ok none) := by
  refine ⟨?_, ?_, ?_⟩
  · intro hok hct hjson
    simp [request, hok, hct, hjson]
  · intro hok hct hjson
    simp [request, hok, hct, hjson]
  · intro hok hct
    simp [request, hok, hct]

/-- Witness for C8: a 204 no-content response (no content type) yields
the empty result, and a JSON response yields its parsed body. -/
theorem request_success_spec_witness :
    request (FetchOutcome.response resp204) = Except.ok none
    ∧ resp204.ok = true ∧ resp204.contentType = none
    ∧ getAgentRun (FetchOutcome.response runOkResp) = Except.ok (some runOkResp.body) := by
  refine ⟨?_, rfl, rfl, ?_⟩
  · exact (request_success_spec resp204 "x").2.2 rfl rfl
  · exact (request_success_spec runOkResp "application/json; charset=utf-8").1
      rfl rfl (by decide)

/-- C9 counterexample: the constructor strips only one trailing slash,
so for a base URL ending in two slashes the claimed idempotence fails:
the client built from `"https://api.ag.dev//"` and the client built
from the same string minus its trailing slash issue different request
URLs. -/
theorem baseUrl_trailing_slash_counterexample :
    "https://api.ag.dev//".data.getLast? = some '/'
    ∧ "https://api.ag.dev/".data = "https://api.ag.dev//".data.dropLast
    ∧ requestUrl (mkAgDevClient "key" "https://api.ag.dev//") "/v0.1/agents"
        ≠ requestUrl (mkAgDevClient "key" "https://api.ag.dev/") "/v0.1/agents" := by
  refine ⟨by decide, by decide, ?_⟩
  decide

/-- C9 (amended): for every apiKey and every base URL `b` that does not
already end in a slash, the client built from `b ++ "/"` and the client
built from `b` issue byte-identical request URLs for every endpoint —
the trailing-slash normalization is idempotent as long as the URL ends
in at most one slash. -/
theorem baseUrl_trailing_slash_amended (apiKey b endpoint : String)
    (h : ¬ b.data.getLast? = some '/') :
    requestUrl (mkAgDevClient apiKey (b ++ "/")) endpoint
      = requestUrl (mkAgDevClient apiKey b) endpoint := by
  have hdata : (b ++ "/").data = b.data ++ ['/'] := by
    rw [strData_append]
  have h1 : stripTrailingSlash (b ++ "/") = b := by
    rw [stripTrailingSlash, hdata]
    rw [if_pos (by simp)]
    rw [List.dropLast_concat]
  have h2 : stripTrailingSlash b = b := by
    rw [stripTrailingSlash, if_neg h]
  simp only [requestUrl, mkAgDevClient, h1, h2]

/-- Witness for C9 (amended): appending a slash to
`"https://api.ag.dev"` does not change the issued URL. -/
theorem baseUrl_trailing_slash_amended_witness :
    requestUrl (mkAgDevClient "key" ("https://api.ag.dev" ++ "/")) "/v0.1/agents"
      = requestUrl (mkAgDevClient "key" "https://api.ag.dev") "/v0.1/agents" :=
  baseUrl_trailing_slash_amended "key" "https://api.ag.dev" "/v0.1/agents" (by decide)

end AgDev
